import Mathlib

/-!
# Verification of the stuck-orders analytics pipeline

Shallow embedding of the analytics pipeline of `src/app.py` (a pandas /
streamlit dashboard over a table of "stuck" order records), together with
proofs and refutations of the specification claims.

Modelling conventions:
* A UTC timestamp is an integer number of seconds since the Unix epoch
  (pandas stores tz-aware timestamps as a single instant; all inputs are
  normalised to UTC by the ingestion code).
* A pandas whole-day difference `(a - b).dt.days` floors the timedelta, so it
  is modelled by `Int.fdiv (a - b) 86400`.
* `Series.dt.to_period("M")` is modelled by `yearMonth`, which maps an instant
  to a linear calendar-month index `year * 12 + (month - 1)` using the
  standard civil-calendar conversion; sorting the `"YYYY-MM"` strings used by
  the code coincides with the numeric order of this index.
* A pandas value that is `NaN` / missing is modelled with `Option`
  (`none` = missing); pandas aggregations that skip `NaN` are modelled
  accordingly at each use site.
* A computation that raises a Python exception is modelled as returning
  `none`, documented at the definition.
-/

namespace StuckOrders

/-! ## Generic list utilities (sorting, first-occurrence dedup) -/

/-- Insert an element into a list so that a `≤`-sorted list stays sorted.
Used to model the ascending key order produced by `sort_values` / `groupby`. -/
def insSorted [LinearOrder α] (m : α) : List α → List α
  | [] => [m]
  | x :: xs => if m ≤ x then m :: x :: xs else x :: insSorted m xs

/-- Insertion sort; models pandas sorting of group keys ascending. -/
def sortList [LinearOrder α] (l : List α) : List α := l.foldr insSorted []

/-- First-occurrence deduplication; models `pandas.Series.unique`, which
keeps values in order of first appearance. -/
def uniqueFirst [DecidableEq α] (l : List α) : List α :=
  l.foldl (fun acc a => if a ∈ acc then acc else acc ++ [a]) []

/-- Substring containment on character lists. -/
def containsSub [DecidableEq α] (hay needle : List α) : Bool :=
  needle.isPrefixOf hay ||
    match hay with
    | [] => false
    | _ :: t => containsSub t needle

/-- Model of `pandas.Series.str.contains` as used at line 706 of the source:
a plain substring test of `needle` against the comma-joined
`affected_verticals` string.  (The real call even interprets `needle` as a
regular expression; for the alphanumeric vertical names considered here the
two coincide.) -/
def strContains (hay needle : String) : Bool :=
  containsSub hay.toList needle.toList

/-! ## Timestamps and calendar months -/

/-- Pandas whole-day difference `(a - b).dt.days`: the timedelta's day
component, which floors toward negative infinity. -/
def dayDiff (a b : Int) : Int := (a - b).fdiv 86400

/-- Linear calendar-month index (`year * 12 + month - 1`) of a UTC instant
given in seconds since the Unix epoch; models `.dt.to_period("M")`.
Uses the standard civil-from-days algorithm.  All intermediate divisions are
of non-negative values, where `Int` division agrees with flooring. -/
def yearMonth (t : Int) : Int :=
  let z := t.fdiv 86400 + 719468
  let era := z.fdiv 146097
  let doe := z - era * 146097
  let yoe := (doe - doe / 1460 + doe / 36524 - doe / 146096) / 365
  let y := yoe + era * 400
  let doy := doe - (365 * yoe + yoe / 4 - yoe / 100)
  let mp := (5 * doy + 2) / 153
  let m := mp + (if mp < 10 then 3 else -9)
  let y2 := y + (if m ≤ 2 then 1 else 0)
  y2 * 12 + (m - 1)

/-! ## The input data model (§3 of the spec)

One row of the ingested table, after timestamp normalisation.  The extended
schema group (`account_*`) is modelled as present, since every claim that
touches it concerns the code path where it is present (the analyzer is gated
on its presence). -/

structure OrderRecord where
  order_id : Nat
  account_id : Nat
  order_type_name : String
  order_status_name : String
  order_created_ts : Int
  travel_start_ts : Int
  travel_end_ts : Int
  account_first_order_ts : Int
  account_last_order_ts : Int
  account_total_orders : Nat
deriving DecidableEq, Repr

/-- `days_stuck` derived column (line 36): whole days between the evaluation
instant and `travel_end_ts`. -/
def days_stuck (now : Int) (r : OrderRecord) : Int := dayDiff now r.travel_end_ts

/-! ## Filter Engine (lines 86–97) -/

/-- The predicate specification chosen in the sidebar: allowed verticals, the
inclusive `days_stuck` range, and allowed statuses. -/
structure FilterSpec where
  verticals : List String
  daysLo : Int
  daysHi : Int
  statuses : List String

/-- Conjunction of the four sidebar predicates (lines 86–91, the branch where
the status column exists). -/
def filtered_df (now : Int) (s : FilterSpec) (rows : List OrderRecord) :
    List OrderRecord :=
  rows.filter (fun r =>
    decide (r.order_type_name ∈ s.verticals) &&
    decide (s.daysLo ≤ days_stuck now r) &&
    decide (days_stuck now r ≤ s.daysHi) &&
    decide (r.order_status_name ∈ s.statuses))

/-- `s1` is a narrower predicate specification than `s2`: each allowed set is
a subset and the numeric range is contained. -/
def Narrower (s1 s2 : FilterSpec) : Prop :=
  (∀ v ∈ s1.verticals, v ∈ s2.verticals) ∧
  s2.daysLo ≤ s1.daysLo ∧ s1.daysHi ≤ s2.daysHi ∧
  (∀ v ∈ s1.statuses, v ∈ s2.statuses)

/-! ## Cohort Aggregator (lines 200–225)

`filtered_df.groupby('account_id')['travel_end_ts'].min()` keyed by calendar
month, outer-merged with the per-month record counts, sorted chronologically,
and cumulated. -/

/-- The distinct `account_id` values of the table, in the ascending order
produced by `groupby('account_id')`. -/
def accounts (rows : List OrderRecord) : List Nat :=
  sortList (rows.map (·.account_id)).dedup

/-- `min(travel_end_ts)` over the account's records (line 201).  Only applied
to accounts that occur in `rows`, where the minimum exists; the `getD`
default is never reached there. -/
def firstStuckTs (rows : List OrderRecord) (a : Nat) : Int :=
  (((rows.filter (fun r => decide (r.account_id = a))).map
    (·.travel_end_ts)).min?).getD 0

/-- Calendar month of the account's first stuck order (line 203). -/
def firstMonth (rows : List OrderRecord) (a : Nat) : Int :=
  yearMonth (firstStuckTs rows a)

/-- `new_users_impacted` for month `m`: the number of accounts whose first
stuck order falls in `m` (line 206). -/
def newCount (rows : List OrderRecord) (m : Int) : Nat :=
  (accounts rows).countP (fun a => decide (firstMonth rows a = m))

/-- `total_stuck_orders` for month `m`: records whose `travel_end_ts` falls
in `m` (line 212). -/
def orderCount (rows : List OrderRecord) (m : Int) : Nat :=
  rows.countP (fun r => decide (yearMonth r.travel_end_ts = m))

/-- The month keys of the outer merge (line 216): the union of the months of
both monthly series, chronologically sorted (line 217). -/
def monthsList (rows : List OrderRecord) : List Int :=
  sortList (((accounts rows).map (firstMonth rows) ++
    rows.map (fun r => yearMonth r.travel_end_ts)).dedup)

/-- A per-month count as it appears after the outer merge: a month absent
from one series gets a missing value (`NaN`, modelled `none`) there, not 0. -/
def optCount (c : Nat) : Option Nat := if c = 0 then none else some c

/-- One row of the merged monthly cohort table (`monthly_impact`). -/
structure MonthlyRow where
  month : Int
  new_users : Option Nat
  total_stuck_orders : Option Nat
  cumulative : Option Nat
deriving DecidableEq, Repr

/-- Builds the merged cohort rows over the sorted month keys, threading the
accumulator of `cumsum` (line 218).  Pandas `cumsum` skips `NaN`: a missing
`new_users_impacted` leaves `cumulative_users` missing at that row and the
running sum unchanged. -/
def buildRows (rows : List OrderRecord) : List Int → Nat → List MonthlyRow
  | [], _ => []
  | m :: rest, acc =>
    if newCount rows m = 0 then
      ⟨m, none, optCount (orderCount rows m), none⟩ :: buildRows rows rest acc
    else
      ⟨m, some (newCount rows m), optCount (orderCount rows m),
        some (acc + newCount rows m)⟩ ::
        buildRows rows rest (acc + newCount rows m)

/-- The `monthly_impact` cohort table (lines 200–218). -/
def monthly_impact (rows : List OrderRecord) : List MonthlyRow :=
  buildRows rows (monthsList rows) 0

/-- The "Peak New Users Month" computation (lines 222–225):
`monthly_impact.loc[monthly_impact['new_users_impacted'].idxmax()]`.
`Series.idxmax` returns the first index attaining the maximum of the defined
values; on a series with no defined value — in particular on the empty
table — it raises `ValueError`, modelled by `none`. -/
def peak_month (mi : List MonthlyRow) : Option MonthlyRow :=
  mi.foldl (fun best r =>
    match r.new_users with
    | none => best
    | some c =>
      match best with
      | none => some r
      | some b => if b.new_users.getD 0 < c then some r else best) none

/-- Ordering of two optional cumulative counts: every defined earlier value
is at most every defined later value (missing values carry no constraint,
matching `NaN`). -/
def optLE (x y : Option Nat) : Prop :=
  ∀ a b, x = some a → y = some b → a ≤ b

/-! ### Concrete cohort example

One account with two stuck orders, `travel_end_ts` 2024-01-15 and 2024-03-15.
March has a stuck order but no newly impacted account, so after the outer
merge its `new_users_impacted` is missing. -/

def rJan : OrderRecord :=
  ⟨1, 1, "flight", "eticket_issued", 0, 0, 19737 * 86400, 0, 19700 * 86400, 5⟩

def rMar : OrderRecord :=
  ⟨2, 1, "flight", "eticket_issued", 0, 0, 19797 * 86400, 0, 19700 * 86400, 5⟩

def exCohortRows : List OrderRecord := [rJan, rMar]

/-! ## Churn/Correlation Analyzer (lines 539–792) -/

inductive UserStatus where
  | active
  | churned
deriving DecidableEq, Repr

/-- Lines 570–572: `'Churned' if days_since_last_order >= churn_threshold
else 'Active'`.  The threshold comes from a slider with default 30 and
domain `[7, 90]` (line 547). -/
def user_status (churn_threshold d : Int) : UserStatus :=
  if d ≥ churn_threshold then .churned else .active

inductive StuckTiming where
  | afterLastOrder
  | beforeDuringActive
deriving DecidableEq, Repr

/-- Lines 575–577: `'After Last Order' if days_first_stuck_to_last_order < 0
else 'Before/During Active Period'`. -/
def stuck_timing (d : Int) : StuckTiming :=
  if d < 0 then .afterLastOrder else .beforeDuringActive

inductive StuckCat where
  | one
  | two
  | threeToFive
  | fivePlus
deriving DecidableEq, Repr

/-- Lines 628–633: `pd.cut(stuck_orders_count, bins=[0,1,2,5,inf],
right=True)`: with `right=True` each bin is the half-open interval
`(lo, hi]`; a value in no bin (here only 0) gets `NaN` (`none`). -/
def stuck_order_category (n : Nat) : Option StuckCat :=
  if 0 < n ∧ n ≤ 1 then some .one
  else if 1 < n ∧ n ≤ 2 then some .two
  else if 2 < n ∧ n ≤ 5 then some .threeToFive
  else if 5 < n then some .fivePlus
  else none

/-- The bucket membership exactly as the claim words it: half-open
boundaries `(0,1], (1,2], (2,5], (5,∞)`.  Spec-side definition, to be
compared with the `pd.cut` translation `stuck_order_category`. -/
def inBucketSpec (b : StuckCat) (n : Nat) : Prop :=
  match b with
  | .one => 0 < n ∧ n ≤ 1
  | .two => 1 < n ∧ n ≤ 2
  | .threeToFive => 2 < n ∧ n ≤ 5
  | .fivePlus => 5 < n

instance (b : StuckCat) (n : Nat) : Decidable (inBucketSpec b n) := by
  cases b <;> simp [inBucketSpec] <;> infer_instance

/-- One row of `user_analysis` (lines 550–567): the per-account churn
profile. -/
structure UserChurnProfile where
  account_id : Nat
  stuck_orders_count : Nat
  first_order_ts : Int
  last_order_ts : Int
  total_orders : Nat
  first_stuck_experience_ts : Int
  days_since_last_order : Int
  affected_verticals : String
  days_first_stuck_to_last_order : Int
deriving DecidableEq, Repr

/-- Lines 550–567: `filtered_df.groupby('account_id').agg(...)`.  The
`'first'` aggregators take the value of the account's first row; the
account-lifetime columns are constant per account, so `head?.getD`'s default
is never the resulting value for accounts present in `rows`.
`affected_verticals` is the comma-joined string of the account's distinct
verticals in first-appearance order (`', '.join(x.unique())`, line 557). -/
def user_analysis (now : Int) (rows : List OrderRecord) :
    List UserChurnProfile :=
  (accounts rows).map (fun a =>
    let mine := rows.filter (fun r => decide (r.account_id = a))
    let firstStuck := ((mine.map (·.travel_end_ts)).min?).getD 0
    let lastOrder := ((mine.map (·.account_last_order_ts)).head?).getD 0
    { account_id := a
      stuck_orders_count := mine.length
      first_order_ts := ((mine.map (·.account_first_order_ts)).head?).getD 0
      last_order_ts := lastOrder
      total_orders := ((mine.map (·.account_total_orders)).head?).getD 0
      first_stuck_experience_ts := firstStuck
      days_since_last_order := dayDiff now lastOrder
      affected_verticals :=
        String.intercalate ", " (uniqueFirst (mine.map (·.order_type_name)))
      days_first_stuck_to_last_order := dayDiff lastOrder firstStuck })

/-- The set of distinct verticals an account's stuck records actually touch —
the `affected_verticals` *set* of the spec's data model, before the code
flattens it into a joined string. -/
def trueAffected (rows : List OrderRecord) (a : Nat) : List String :=
  uniqueFirst ((rows.filter (fun r => decide (r.account_id = a))).map
    (·.order_type_name))

/-! ### Churn rates -/

/-- `round(x, 2)`: rounding a rate to two decimals.  (Python/numpy round
half to even; the two only differ on exact `.005` ties, which none of the
claims turn on.) -/
def round2 (q : ℚ) : ℚ := ((round (q * 100) : Int) : ℚ) / 100

def totalUsers (ps : List UserChurnProfile) : Nat := ps.length

def churnedCount (thr : Int) (ps : List UserChurnProfile) : Nat :=
  ps.countP (fun p => decide (user_status thr p.days_since_last_order = .churned))

/-- Line 596: the aggregate churn rate, with an explicit zero-denominator
guard. -/
def churn_rate (thr : Int) (ps : List UserChurnProfile) : ℚ :=
  if 0 < totalUsers ps then
    (churnedCount thr ps : ℚ) / (totalUsers ps : ℚ) * 100
  else 0

/-- Line 706: `user_analysis[user_analysis['affected_verticals']
.str.contains(vertical)]` — substring match against the joined string. -/
def vertical_users (ps : List UserChurnProfile) (v : String) :
    List UserChurnProfile :=
  ps.filter (fun p => strContains p.affected_verticals v)

def verticalTotal (ps : List UserChurnProfile) (v : String) : Nat :=
  (vertical_users ps v).length

def verticalChurned (thr : Int) (ps : List UserChurnProfile) (v : String) :
    Nat :=
  (vertical_users ps v).countP
    (fun p => decide (user_status thr p.days_since_last_order = .churned))

/-- Lines 709–716: per-vertical churn rate, zero-denominator guarded, then
rounded to two decimals. -/
def verticalChurnRate (thr : Int) (ps : List UserChurnProfile) (v : String) :
    ℚ :=
  round2 (if 0 < verticalTotal ps v then
    (verticalChurned thr ps v : ℚ) / (verticalTotal ps v : ℚ) * 100
  else 0)

/-- The profiles of one `stuck_order_category` bucket.  Profiles with no
category (count 0, `NaN`) belong to no bucket, as `groupby` drops them. -/
def bucket_users (ps : List UserChurnProfile) (b : StuckCat) :
    List UserChurnProfile :=
  ps.filter (fun p => decide (stuck_order_category p.stuck_orders_count = some b))

def bucketTotal (ps : List UserChurnProfile) (b : StuckCat) : Nat :=
  (bucket_users ps b).length

def bucketChurned (thr : Int) (ps : List UserChurnProfile) (b : StuckCat) :
    Nat :=
  (bucket_users ps b).countP
    (fun p => decide (user_status thr p.days_since_last_order = .churned))

/-- Lines 635–642: the per-bucket churn rate.  `groupby` over the `pd.cut`
categorical keeps all four categories, and — unlike the aggregate and
per-vertical computations — this one has *no* zero-denominator guard: an
empty bucket divides `0 / 0`, producing `NaN` (`none`). -/
def bucketChurnRate (thr : Int) (ps : List UserChurnProfile) (b : StuckCat) :
    Option ℚ :=
  if bucketTotal ps b = 0 then none
  else some (round2
    ((bucketChurned thr ps b : ℚ) / (bucketTotal ps b : ℚ) * 100))

/-! ### Time-to-churn (lines 669–698) -/

/-- Line 669: the profiles with `stuck_timing = 'Before/During Active
Period'`. -/
def before_during_users (ps : List UserChurnProfile) :
    List UserChurnProfile :=
  ps.filter (fun p =>
    decide (stuck_timing p.days_first_stuck_to_last_order = .beforeDuringActive))

/-- Line 673: the `time_to_churn_days` series that the median, mean and
"stopped within 7 days" statistics are computed over. -/
def time_to_churn_series (ps : List UserChurnProfile) : List Int :=
  (before_during_users ps).map (·.days_first_stuck_to_last_order)

/-! ### Pearson correlation (lines 764–776) -/

def meanQ (l : List ℚ) : ℚ := l.sum / (l.length : ℚ)

/-- Sum of squared deviations from the mean; zero iff the series has zero
variance. -/
def sqDevSum (l : List ℚ) : ℚ := (l.map (fun x => (x - meanQ l) ^ 2)).sum

def covSum (xy : List (ℚ × ℚ)) : ℚ :=
  (xy.map (fun p =>
    (p.1 - meanQ (xy.map Prod.fst)) * (p.2 - meanQ (xy.map Prod.snd)))).sum

/-- Lines 767–768: `user_analysis[['stuck_orders_count','is_churned']]
.corr().iloc[0, 1]` — the Pearson coefficient.  With fewer than 2 points or
a zero-variance series the denominator is 0 and pandas yields `NaN`,
modelled `none`; otherwise the usual `cov / (sx * sy)` value. -/
noncomputable def correlation (xy : List (ℚ × ℚ)) : Option ℝ :=
  if xy.length < 2 ∨ sqDevSum (xy.map Prod.fst) = 0 ∨
      sqDevSum (xy.map Prod.snd) = 0 then none
  else some ((covSum xy : ℝ) /
    Real.sqrt ((sqDevSum (xy.map Prod.fst) * sqDevSum (xy.map Prod.snd) : ℚ) : ℝ))

/-- The two paired series: `stuck_orders_count` against the 0/1
`is_churned` indicator (line 767). -/
def corrSeries (thr : Int) (ps : List UserChurnProfile) : List (ℚ × ℚ) :=
  ps.map (fun p => ((p.stuck_orders_count : ℚ),
    if user_status thr p.days_since_last_order = .churned then 1 else 0))

noncomputable def stuckChurnCorrelation (thr : Int)
    (ps : List UserChurnProfile) : Option ℝ :=
  correlation (corrSeries thr ps)

/-! ### Concrete analyzer examples -/

/-- One active user (0 days since last order) with a single stuck order in
vertical "flight". -/
def pA : UserChurnProfile := ⟨1, 1, 0, 100, 5, 50, 0, "flight", 3⟩

/-- Two churned users (100 resp. 200 days inactive) with different stuck
counts: the churn indicator series is constant. -/
def pB : UserChurnProfile := ⟨1, 1, 0, 0, 5, 0, 100, "flight", 3⟩

def pC : UserChurnProfile := ⟨2, 2, 0, 0, 5, 0, 200, "hotel", 4⟩

/-- Two accounts: account 1 touches only vertical "carrental", account 2
only "car"; both verticals are present in the table. -/
def rCarRental : OrderRecord :=
  ⟨1, 1, "carrental", "eticket_issued", 0, 0, 19737 * 86400, 0,
    19700 * 86400, 5⟩

def rCar : OrderRecord :=
  ⟨2, 2, "car", "eticket_issued", 0, 0, 19737 * 86400, 0, 19700 * 86400, 5⟩

def exC4rows : List OrderRecord := [rCarRental, rCar]

/-! ## Theorems -/

theorem insSorted_perm [LinearOrder α] (m : α) (l : List α) :
    List.Perm (insSorted m l) (m :: l) := by
  induction l with
  | nil => simp [insSorted]
  | cons x xs ih =>
    by_cases h : m ≤ x
    · simp [insSorted, h]
    · simp only [insSorted, if_neg h]
      exact List.Perm.trans (ih.cons x) (List.Perm.swap _ _ _)

theorem sortList_perm [LinearOrder α] (l : List α) : List.Perm (sortList l) l := by
  induction l with
  | nil => exact List.Perm.refl _
  | cons x xs ih => exact List.Perm.trans (insSorted_perm _ _) (ih.cons x)

theorem mem_sortList [LinearOrder α] {a : α} {l : List α} :
    a ∈ sortList l ↔ a ∈ l := (sortList_perm l).mem_iff

theorem sortList_nodup [LinearOrder α] {l : List α} (h : l.Nodup) :
    (sortList l).Nodup := ((sortList_perm l).nodup_iff).mpr h

theorem insSorted_sorted [LinearOrder α] {m : α} {l : List α}
    (h : l.Pairwise (· ≤ ·)) : (insSorted m l).Pairwise (· ≤ ·) := by
  induction l with
  | nil => simp [insSorted]
  | cons x xs ih =>
    rcases List.pairwise_cons.mp h with ⟨hx, hxs⟩
    by_cases hm : m ≤ x
    · rw [insSorted, if_pos hm]
      refine List.pairwise_cons.mpr ⟨?_, h⟩
      intro b hb
      rcases List.mem_cons.mp hb with rfl | hb
      · exact hm
      · exact le_trans hm (hx _ hb)
    · rw [insSorted, if_neg hm]
      refine List.pairwise_cons.mpr ⟨?_, ih hxs⟩
      intro b hb
      rcases List.mem_cons.mp ((insSorted_perm m xs).mem_iff.mp hb) with rfl | hb
      · exact le_of_not_le hm
      · exact hx _ hb

theorem sortList_sorted [LinearOrder α] (l : List α) :
    (sortList l).Pairwise (· ≤ ·) := by
  induction l with
  | nil => simp [sortList]
  | cons x xs ih => exact insSorted_sorted ih

theorem mem_uniqueFirst_aux [DecidableEq α] (l : List α) (acc : List α)
    (x : α) :
    (x ∈ l.foldl (fun acc a => if a ∈ acc then acc else acc ++ [a]) acc) ↔
      x ∈ acc ∨ x ∈ l := by
  induction l generalizing acc with
  | nil => simp
  | cons a l ih =>
    simp only [List.foldl_cons]
    by_cases h : a ∈ acc
    · rw [if_pos h, ih]
      simp only [List.mem_cons]
      constructor
      · rintro (hx | hx)
        · exact Or.inl hx
        · exact Or.inr (Or.inr hx)
      · rintro (hx | rfl | hx)
        · exact Or.inl hx
        · exact Or.inl h
        · exact Or.inr hx
    · rw [if_neg h, ih]
      simp only [List.mem_append, List.mem_cons, List.mem_singleton]
      tauto

theorem mem_uniqueFirst [DecidableEq α] {x : α} {l : List α} :
    x ∈ uniqueFirst l ↔ x ∈ l := by
  unfold uniqueFirst
  rw [mem_uniqueFirst_aux]
  simp

theorem uniqueFirst_nodup_aux [DecidableEq α] (l : List α) (acc : List α)
    (hacc : acc.Nodup) :
    (l.foldl (fun acc a => if a ∈ acc then acc else acc ++ [a]) acc).Nodup := by
  induction l generalizing acc with
  | nil => simpa
  | cons a l ih =>
    simp only [List.foldl_cons]
    by_cases h : a ∈ acc
    · rw [if_pos h]
      exact ih acc hacc
    · rw [if_neg h]
      refine ih _ ?_
      rw [List.nodup_append]
      exact ⟨hacc, List.nodup_singleton a, by simpa using h⟩

theorem uniqueFirst_nodup [DecidableEq α] (l : List α) :
    (uniqueFirst l).Nodup :=
  uniqueFirst_nodup_aux l [] List.nodup_nil

/-- C9: Filtering is monotone: a narrower predicate specification yields at
most as many rows as a wider one, on every input table. -/
theorem filtered_df_monotone (now : Int) (s1 s2 : FilterSpec)
    (rows : List OrderRecord) (h : Narrower s1 s2) :
    (filtered_df now s1 rows).length ≤ (filtered_df now s2 rows).length := by
  obtain ⟨hv, hlo, hhi, hs⟩ := h
  unfold filtered_df
  rw [← List.countP_eq_length_filter, ← List.countP_eq_length_filter]
  apply List.countP_mono_left
  intro r _ hr
  simp only [Bool.and_eq_true, decide_eq_true_eq] at hr ⊢
  exact ⟨⟨⟨hv _ hr.1.1.1, le_trans hlo hr.1.1.2⟩, le_trans hr.1.2 hhi⟩, hs _ hr.2⟩

/-- Witness for C9 at a concrete table and a concrete narrower/wider pair. -/
theorem filtered_df_monotone_witness :
    (filtered_df 86400
        ⟨["flight"], 0, 1, ["eticket_issued"]⟩
        [⟨1, 7, "flight", "eticket_issued", 0, 0, 0, 0, 0, 1⟩,
         ⟨2, 8, "hotel", "eticket_issued", 0, 0, 0, 0, 0, 1⟩]).length ≤
      (filtered_df 86400
        ⟨["flight", "hotel"], 0, 2, ["eticket_issued"]⟩
        [⟨1, 7, "flight", "eticket_issued", 0, 0, 0, 0, 0, 1⟩,
         ⟨2, 8, "hotel", "eticket_issued", 0, 0, 0, 0, 0, 1⟩]).length :=
  filtered_df_monotone 86400 _ _ _
    ⟨by intro v hv; simp at hv; simp [hv], by norm_num, by norm_num,
     by intro v hv; exact hv⟩

/-! ### Cohort lemmas -/

theorem buildRows_months (rows : List OrderRecord) (ms : List Int) (acc : Nat) :
    (buildRows rows ms acc).map (·.month) = ms := by
  induction ms generalizing acc with
  | nil => rfl
  | cons m rest ih =>
    by_cases h : newCount rows m = 0
    · rw [buildRows, if_pos h]; simp [ih]
    · rw [buildRows, if_neg h]; simp [ih]

theorem buildRows_cumulative (rows : List OrderRecord) (ms : List Int)
    (acc : Nat) :
    ((buildRows rows ms acc).map (·.cumulative)).Pairwise optLE ∧
    (∀ x ∈ (buildRows rows ms acc).map (·.cumulative),
      ∀ a, x = some a → acc ≤ a) := by
  induction ms generalizing acc with
  | nil => simp [buildRows]
  | cons m rest ih =>
    by_cases h : newCount rows m = 0
    · rw [buildRows, if_pos h]
      obtain ⟨hp, hb⟩ := ih acc
      refine ⟨List.pairwise_cons.mpr ⟨?_, hp⟩, ?_⟩
      · intro x _ a b hab
        exact absurd hab (by simp)
      · intro x hx a hxa
        rcases List.mem_cons.mp hx with rfl | hx
        · exact absurd hxa (by simp)
        · exact hb x hx a hxa
    · rw [buildRows, if_neg h]
      obtain ⟨hp, hb⟩ := ih (acc + newCount rows m)
      refine ⟨List.pairwise_cons.mpr ⟨?_, hp⟩, ?_⟩
      · intro x hx a b ha hxb
        have ha2 : a = acc + newCount rows m := by
          simpa using ha.symm
        subst ha2
        exact hb x hx b hxb
      · intro x hx a hxa
        rcases List.mem_cons.mp hx with rfl | hx
        · have : a = acc + newCount rows m := by simpa using hxa.symm
          omega
        · have := hb x hx a hxa
          omega

theorem buildRows_new_sum (rows : List OrderRecord) (ms : List Int)
    (acc : Nat) :
    ((buildRows rows ms acc).map (fun r => r.new_users.getD 0)).sum
      = (ms.map (fun m => newCount rows m)).sum := by
  induction ms generalizing acc with
  | nil => rfl
  | cons m rest ih =>
    by_cases h : newCount rows m = 0
    · rw [buildRows, if_pos h]; simp [ih, h]
    · rw [buildRows, if_neg h]; simp [ih]

theorem buildRows_counts (rows : List OrderRecord) (ms : List Int)
    (acc : Nat) :
    ∀ row ∈ buildRows rows ms acc,
      row.new_users = optCount (newCount rows row.month) ∧
      row.total_stuck_orders = optCount (orderCount rows row.month) := by
  induction ms generalizing acc with
  | nil => simp [buildRows]
  | cons m rest ih =>
    by_cases h : newCount rows m = 0
    · rw [buildRows, if_pos h]
      intro row hrow
      rcases List.mem_cons.mp hrow with rfl | hrow
      · exact ⟨by simp [optCount, h], rfl⟩
      · exact ih acc row hrow
    · rw [buildRows, if_neg h]
      intro row hrow
      rcases List.mem_cons.mp hrow with rfl | hrow
      · exact ⟨by simp [optCount, h], rfl⟩
      · exact ih _ row hrow

theorem sum_map_addN {β : Type} (ms : List β) (g h : β → Nat) :
    (ms.map (fun m => g m + h m)).sum = (ms.map g).sum + (ms.map h).sum := by
  induction ms with
  | nil => rfl
  | cons m rest ih => simp [ih]; omega

theorem sum_ind_zero {β : Type} [DecidableEq β] {x : β} {ms : List β}
    (hx : x ∉ ms) :
    (ms.map (fun m => if x = m then (1 : Nat) else 0)).sum = 0 := by
  induction ms with
  | nil => rfl
  | cons m rest ih =>
    have hxm : ¬ x = m := fun h => hx (h ▸ List.mem_cons_self _ _)
    have hxr : x ∉ rest := fun h => hx (List.mem_cons_of_mem _ h)
    simp [hxm, ih hxr]

theorem sum_ind_one {β : Type} [DecidableEq β] {x : β} {ms : List β}
    (hnd : ms.Nodup) (hx : x ∈ ms) :
    (ms.map (fun m => if x = m then (1 : Nat) else 0)).sum = 1 := by
  induction ms with
  | nil => simp at hx
  | cons m rest ih =>
    rcases List.nodup_cons.mp hnd with ⟨hm, hr⟩
    rcases List.mem_cons.mp hx with rfl | hx
    · simp [sum_ind_zero hm]
    · have hxm : ¬ x = m := fun h => hm (h ▸ hx)
      simp [hxm, ih hr hx]

/-- Counting fibre-wise: summing, over a duplicate-free list of keys that
covers the image of `f`, the number of elements mapped to each key gives back
the total number of elements. -/
theorem sum_countP_eq_length {α β : Type} [DecidableEq β] (l : List α)
    (ms : List β) (f : α → β) (hnd : ms.Nodup) (hcov : ∀ a ∈ l, f a ∈ ms) :
    (ms.map (fun m => l.countP (fun a => decide (f a = m)))).sum = l.length := by
  induction l with
  | nil => simp
  | cons a l ih =>
    have hfa : f a ∈ ms := hcov a (List.mem_cons_self _ _)
    have hcov' : ∀ b ∈ l, f b ∈ ms := fun b hb => hcov b (List.mem_cons_of_mem _ hb)
    have hcons : ∀ m : β,
        (a :: l).countP (fun x => decide (f x = m))
          = l.countP (fun x => decide (f x = m)) + (if f a = m then 1 else 0) := by
      intro m
      rw [List.countP_cons]
      by_cases h : f a = m <;> simp [h]
    calc (ms.map (fun m => (a :: l).countP (fun x => decide (f x = m)))).sum
        = (ms.map (fun m =>
            l.countP (fun x => decide (f x = m)) + (if f a = m then 1 else 0))).sum := by
          simp only [hcons]
      _ = (ms.map (fun m => l.countP (fun x => decide (f x = m)))).sum
            + (ms.map (fun m => if f a = m then (1 : Nat) else 0)).sum :=
          sum_map_addN _ _ _
      _ = l.length + 1 := by rw [ih hcov', sum_ind_one hnd hfa]
      _ = (a :: l).length := by simp

theorem accounts_nodup (rows : List OrderRecord) : (accounts rows).Nodup :=
  sortList_nodup (List.nodup_dedup _)

theorem monthsList_nodup (rows : List OrderRecord) : (monthsList rows).Nodup :=
  sortList_nodup (List.nodup_dedup _)

theorem firstMonth_mem_monthsList (rows : List OrderRecord) {a : Nat}
    (ha : a ∈ accounts rows) : firstMonth rows a ∈ monthsList rows := by
  unfold monthsList
  rw [mem_sortList, List.mem_dedup]
  exact List.mem_append_left _ (List.mem_map_of_mem _ ha)

theorem orderMonth_mem_monthsList (rows : List OrderRecord) {r : OrderRecord}
    (hr : r ∈ rows) : yearMonth r.travel_end_ts ∈ monthsList rows := by
  unfold monthsList
  rw [mem_sortList, List.mem_dedup]
  exact List.mem_append_right _ (List.mem_map_of_mem _ hr)

theorem optCount_eq_none {c : Nat} : optCount c = none ↔ c = 0 := by
  unfold optCount; split <;> simp_all

/-! ### Claim theorems for the Cohort Aggregator -/

/-- **C1** (code evaluation at the failing input): on an empty filtered
table, the aggregation does return an empty monthly series — but the
downstream "peak new-users month" computation does not report a no-data
condition: `idxmax` over the empty `new_users_impacted` series raises
`ValueError` (modelled by `none`), contrary to the spec's requirement. -/
theorem peak_month_empty_raises :
    monthly_impact [] = [] ∧ peak_month (monthly_impact []) = none :=
  ⟨rfl, rfl⟩

/-- **C2**: in the computed monthly cohort series the months are in
chronological order, `cumulative_users` is non-decreasing over the defined
entries (missing entries mirror pandas `NaN`, which the running sum skips),
and the `new_users_impacted` counts (summed as pandas does, skipping the
missing ones) add up to the number of distinct `account_id` values of the
filtered table. -/
theorem cohort_series_invariants (rows : List OrderRecord) :
    ((monthly_impact rows).map (·.month)).Pairwise (· ≤ ·) ∧
    ((monthly_impact rows).map (·.cumulative)).Pairwise optLE ∧
    ((monthly_impact rows).map (fun r => r.new_users.getD 0)).sum
      = (accounts rows).length := by
  refine ⟨?_, (buildRows_cumulative rows _ 0).1, ?_⟩
  · rw [monthly_impact, buildRows_months]
    exact sortList_sorted _
  · rw [monthly_impact, buildRows_new_sum]
    simp only [newCount]
    exact sum_countP_eq_length _ _ _ (monthsList_nodup rows)
      (fun a ha => firstMonth_mem_monthsList rows ha)

/-- Witness for C2 on the concrete two-record table: the defined new-user
counts sum to the single distinct account. -/
theorem cohort_series_invariants_witness :
    ((monthly_impact exCohortRows).map (fun r => r.new_users.getD 0)).sum
      = (accounts exCohortRows).length :=
  (cohort_series_invariants exCohortRows).2.2

/-- **C5** (counterexample to the claim as stated): in the joined cohort
table of `exCohortRows`, March's `new_users_impacted` is a missing value
(`none`, pandas `NaN`), not the zero the claim promises — the code performs
the outer join but never zero-fills the missing side. -/
theorem outer_join_missing_not_zero :
    (monthly_impact exCohortRows).map (·.new_users) = [some 1, none] := by
  decide

/-- **C5** (amended): the per-month series are outer-joined on month key —
every month appearing in either series appears in the result — and a count
missing on either side is left missing (`NaN`/`none`) in the joined table,
not replaced by zero. -/
theorem outer_join_all_months (rows : List OrderRecord) :
    (∀ a ∈ accounts rows,
      firstMonth rows a ∈ (monthly_impact rows).map (·.month)) ∧
    (∀ r ∈ rows,
      yearMonth r.travel_end_ts ∈ (monthly_impact rows).map (·.month)) ∧
    (∀ row ∈ monthly_impact rows,
      (row.new_users = none ↔ newCount rows row.month = 0) ∧
      (row.total_stuck_orders = none ↔ orderCount rows row.month = 0)) := by
  refine ⟨?_, ?_, ?_⟩
  · intro a ha
    rw [monthly_impact, buildRows_months]
    exact firstMonth_mem_monthsList rows ha
  · intro r hr
    rw [monthly_impact, buildRows_months]
    exact orderMonth_mem_monthsList rows hr
  · intro row hrow
    obtain ⟨h1, h2⟩ := buildRows_counts rows _ 0 row hrow
    rw [h1, h2]
    exact ⟨optCount_eq_none, optCount_eq_none⟩

/-- Witness for the amended C5: the March order month of the concrete table
does appear among the joined table's months. -/
theorem outer_join_all_months_witness :
    yearMonth rMar.travel_end_ts ∈ (monthly_impact exCohortRows).map (·.month) :=
  (outer_join_all_months exCohortRows).2.1 rMar (by decide)

/-! ### Rate-arithmetic helper lemmas -/

theorem round2_zero : round2 0 = 0 := by
  simp [round2]

theorem round2_bounds {q : ℚ} (h0 : 0 ≤ q) (h100 : q ≤ 100) :
    0 ≤ round2 q ∧ round2 q ≤ 100 := by
  have hlo : (0 : Int) ≤ round (q * 100) := by
    rw [round_eq]
    exact Int.le_floor.mpr (by push_cast; linarith)
  have hfl : ⌊(10000 : ℚ) + 1 / 2⌋ = (10000 : Int) :=
    Int.floor_eq_iff.mpr (by norm_num)
  have hhi : round (q * 100) ≤ 10000 := by
    rw [round_eq, ← hfl]
    exact Int.floor_mono (by linarith)
  unfold round2
  constructor
  · exact div_nonneg (by exact_mod_cast hlo) (by norm_num)
  · rw [div_le_iff₀ (by norm_num : (0 : ℚ) < 100)]
    calc ((round (q * 100) : Int) : ℚ) ≤ ((10000 : Int) : ℚ) := by
          exact_mod_cast hhi
      _ = 100 * 100 := by norm_num

theorem ratio_bounds {c t : Nat} (hct : c ≤ t) (ht : 0 < t) :
    0 ≤ (c : ℚ) / (t : ℚ) * 100 ∧ (c : ℚ) / (t : ℚ) * 100 ≤ 100 := by
  have htq : (0 : ℚ) < (t : ℚ) := by exact_mod_cast ht
  have hle : (c : ℚ) ≤ (t : ℚ) := by exact_mod_cast hct
  constructor
  · positivity
  · rw [div_mul_eq_mul_div, div_le_iff₀ htq]
    linarith

/-! ### Claim theorems for the Churn/Correlation Analyzer -/

/-- **C3** (counterexample to the claim as stated): with one active user in
vertical "flight", the per-vertical churn rate is 0 while its denominator is
1, refuting "equals 0 exactly when the total-user denominator is 0"; and the
empty "5+ stuck orders" bucket yields an undefined (`NaN`) rate — not a
number in `[0, 100]` and not 0 — because the bucket computation divides
`0 / 0` unguarded. -/
theorem churn_rate_cex :
    verticalChurnRate 30 [pA] "flight" = 0 ∧
    verticalTotal [pA] "flight" = 1 ∧
    bucketChurnRate 30 [pA] .fivePlus = none ∧
    bucketTotal [pA] .fivePlus = 0 := by
  have htot : verticalTotal [pA] "flight" = 1 := by decide
  have hch : verticalChurned 30 [pA] "flight" = 0 := by decide
  have hbt : bucketTotal [pA] .fivePlus = 0 := by decide
  refine ⟨?_, htot, ?_, hbt⟩
  · unfold verticalChurnRate
    rw [htot, hch]
    norm_num [round2]
  · unfold bucketChurnRate
    rw [if_pos hbt]

/-- **C3** (amended): every *defined* churn rate lies in `[0, 100]`; the
aggregate and per-vertical rates (which are zero-denominator guarded) are 0
whenever their denominator is 0 — but also whenever the churned count is 0
with a positive denominator, so "exactly when" fails; the per-bucket rate is
undefined (`NaN`) precisely when its bucket is empty. -/
theorem churn_rates_amended (thr : Int) (ps : List UserChurnProfile)
    (v : String) (b : StuckCat) :
    (0 ≤ churn_rate thr ps ∧ churn_rate thr ps ≤ 100) ∧
    (totalUsers ps = 0 → churn_rate thr ps = 0) ∧
    (0 ≤ verticalChurnRate thr ps v ∧ verticalChurnRate thr ps v ≤ 100) ∧
    (verticalTotal ps v = 0 → verticalChurnRate thr ps v = 0) ∧
    (bucketChurnRate thr ps b = none ↔ bucketTotal ps b = 0) ∧
    (0 ≤ (bucketChurnRate thr ps b).getD 0 ∧
      (bucketChurnRate thr ps b).getD 0 ≤ 100) := by
  refine ⟨?_, ?_, ?_, ?_, ?_, ?_⟩
  · unfold churn_rate
    split
    · exact ratio_bounds (List.countP_le_length _) (by assumption)
    · norm_num
  · intro h
    unfold churn_rate
    rw [if_neg (by omega)]
  · unfold verticalChurnRate
    split
    · exact round2_bounds
        (ratio_bounds (List.countP_le_length _) (by assumption)).1
        (ratio_bounds (List.countP_le_length _) (by assumption)).2
    · simpa using round2_bounds le_rfl (by norm_num)
  · intro h
    unfold verticalChurnRate
    rw [if_neg (by omega), round2_zero]
  · unfold bucketChurnRate
    by_cases h : bucketTotal ps b = 0
    · rw [if_pos h]
      simp [h]
    · rw [if_neg h]
      simp [h]
  · unfold bucketChurnRate
    by_cases h : bucketTotal ps b = 0
    · rw [if_pos h]
      norm_num
    · rw [if_neg h]
      simp only [Option.getD_some]
      exact round2_bounds
        (ratio_bounds (List.countP_le_length _) (Nat.pos_of_ne_zero h)).1
        (ratio_bounds (List.countP_le_length _) (Nat.pos_of_ne_zero h)).2

/-- Witness for the amended C3 on the empty population: the guarded rates
are 0 and the bucket rate is `NaN`. -/
theorem churn_rates_amended_witness :
    churn_rate 30 [] = 0 ∧ verticalChurnRate 30 [] "flight" = 0 ∧
    bucketChurnRate 30 [] .one = none := by
  have h := churn_rates_amended 30 [] "flight" .one
  exact ⟨h.2.1 rfl, h.2.2.2.1 rfl, h.2.2.2.2.1.mpr rfl⟩

/-- **C4** (code evaluation at the failing input): account 1's affected
set is exactly `{"carrental"}` — it does not contain the vertical "car" —
yet the "car" row of the vertical churn table counts it, because membership
is tested with `str.contains`, a substring (even regex) match on the
comma-joined string, and `"car"` is a substring of `"carrental"`.  The claim
requires the row to contain exactly the profiles whose `affected_verticals`
set has the vertical as a member. -/
theorem vertical_membership_substring_bug :
    trueAffected exC4rows 1 = ["carrental"] ∧
    (vertical_users (user_analysis 0 exC4rows) "car").map (·.account_id)
      = [1, 2] := by
  decide

/-- **C6**: whenever the profile population has fewer than 2 members, or
either the stuck-count series or the churned-indicator series has zero
variance, the Pearson coefficient between them is undefined (`NaN`,
`none`) — and in particular is not the value 0. -/
theorem correlation_insufficient (thr : Int) (ps : List UserChurnProfile)
    (h : ps.length < 2 ∨
      sqDevSum ((corrSeries thr ps).map Prod.fst) = 0 ∨
      sqDevSum ((corrSeries thr ps).map Prod.snd) = 0) :
    stuckChurnCorrelation thr ps = none ∧
    stuckChurnCorrelation thr ps ≠ some 0 := by
  have hnone : stuckChurnCorrelation thr ps = none := by
    unfold stuckChurnCorrelation correlation
    rw [if_pos]
    rcases h with h | h | h
    · exact Or.inl (by simpa [corrSeries] using h)
    · exact Or.inr (Or.inl h)
    · exact Or.inr (Or.inr h)
  exact ⟨hnone, by rw [hnone]; exact fun hc => Option.noConfusion hc⟩

/-- Witness for C6: two profiles that are both churned give a constant
indicator series (zero variance), so the coefficient is undefined. -/
theorem correlation_insufficient_witness :
    stuckChurnCorrelation 30 [pB, pC] = none ∧
    stuckChurnCorrelation 30 [pB, pC] ≠ some 0 :=
  correlation_insufficient 30 [pB, pC] (Or.inr (Or.inr (by
    have hs : (corrSeries 30 [pB, pC]).map Prod.snd = [1, 1] := by
      norm_num [corrSeries, pB, pC, user_status]
    rw [hs]
    norm_num [sqDevSum, meanQ])))

/-- **C7**: `user_status` is Churned iff `days_since_last_order` is at least
the churn threshold (slider default 30, domain `[7, 90]`, line 547), and
Active otherwise; in particular, with threshold 30, 45 days of inactivity
give Churned and 10 give Active. -/
theorem user_status_iff_threshold :
    user_status 30 45 = .churned ∧ user_status 30 10 = .active ∧
    ∀ churn_threshold d : Int,
      (user_status churn_threshold d = .churned ↔ churn_threshold ≤ d) := by
  refine ⟨by decide, by decide, ?_⟩
  intro thr d
  unfold user_status
  by_cases h : d ≥ thr
  · simp [h]
  · simp [h]

/-- **C8**: for every `stuck_orders_count ≥ 1` the `pd.cut` bucketing
assigns a category, it agrees with the half-open boundaries
`(0,1], (1,2], (2,5], (5,∞)` of the claim, and those intervals are mutually
exclusive — so every count ≥ 1 lies in exactly one bucket. -/
theorem stuck_order_category_partition (n : Nat) (b c : StuckCat)
    (hn : 1 ≤ n) :
    (stuck_order_category n = some b ↔ inBucketSpec b n) ∧
    (inBucketSpec b n → inBucketSpec c n → b = c) ∧
    (stuck_order_category n).isSome = true := by
  refine ⟨?_, ?_, ?_⟩
  · cases b <;>
      simp only [stuck_order_category, inBucketSpec] <;>
      split_ifs <;> simp_all <;> omega
  · cases b <;> cases c <;> simp [inBucketSpec] <;> omega
  · simp only [stuck_order_category]
    split_ifs <;> simp_all
    omega

/-- Witness for C8 at count 4: it falls in the "3–5" bucket and the
bucketing is defined there. -/
theorem stuck_order_category_partition_witness :
    inBucketSpec .threeToFive 4 ∧ (stuck_order_category 4).isSome = true :=
  ⟨(stuck_order_category_partition 4 .threeToFive .threeToFive
      (by decide)).1.mp (by decide),
   (stuck_order_category_partition 4 .one .one (by decide)).2.2⟩

/-- **C10**: every profile selected into the time-to-churn analysis (those
with `stuck_timing = Before/During Active Period`) has a non-negative
`days_first_stuck_to_last_order`, so the median/mean/≤7-day statistics of
lines 691–698 are computed over non-negative values only. -/
theorem time_to_churn_nonneg (ps : List UserChurnProfile) :
    (∀ p ∈ before_during_users ps, 0 ≤ p.days_first_stuck_to_last_order) ∧
    (∀ x ∈ time_to_churn_series ps, 0 ≤ x) := by
  have hp : ∀ p ∈ before_during_users ps,
      0 ≤ p.days_first_stuck_to_last_order := by
    intro p hp
    have hmem := List.of_mem_filter hp
    rw [decide_eq_true_eq] at hmem
    unfold stuck_timing at hmem
    by_cases h : p.days_first_stuck_to_last_order < 0
    · rw [if_pos h] at hmem
      exact absurd hmem (by simp)
    · omega
  refine ⟨hp, ?_⟩
  intro x hx
  rcases List.mem_map.mp hx with ⟨p, hpm, rfl⟩
  exact hp p hpm

/-- Witness for C10: the concrete active profile `pA` is selected (its
timing value 3 is not negative) and its series value is non-negative. -/
theorem time_to_churn_nonneg_witness :
    (3 : Int) ∈ time_to_churn_series [pA] ∧ (0 : Int) ≤ 3 :=
  ⟨by decide, (time_to_churn_nonneg [pA]).2 3 (by decide)⟩

end StuckOrders
